import Mathlib

/-!
Verification of the pipeops-cli pipeline orchestration core.

The Python sources under `pipeops_cli_package/Core` are shallowly embedded
here.  Network calls, the interactive console and template file IO are
modelled as oracle parameters (the outcome each call would produce after
the retry wrapper has run); everything else follows the Python control
flow statement by statement.  The GitLab remote is modelled as an explicit
state value threaded through the operations that mutate it.
-/

namespace PipeOps

/-! ## ProjectAnalyzer._detect_language (ProjectAnalyzer.py, lines 107-161) -/

/-- Marker filenames scored for the Python ecosystem. -/
def python_indicators : List String :=
  ["app.py", "main.py", "server.py", "manage.py", "wsgi.py", "asgi.py",
   "requirements.txt", "setup.py", "pyproject.toml", "__init__.py"]

/-- Marker filenames scored for the Node.js ecosystem. -/
def nodejs_indicators : List String :=
  ["package.json", "server.js", "app.js", "index.js",
   "yarn.lock", "package-lock.json"]

/-- ASCII lower-casing of one character, as `str.lower` acts on the ASCII
file names the analyzer handles. -/
def lower_ch (c : Char) : Char :=
  if c.toNat ≥ 65 ∧ c.toNat ≤ 90 then Char.ofNat (c.toNat + 32) else c

/-- ASCII lower-casing of a file name (`f.lower()`). -/
def lower_str (s : String) : String := String.mk (s.data.map lower_ch)

/-- Suffix test on file names (`f.endswith(suf)`). -/
def ends_with_str (s suf : String) : Bool := List.isSuffixOf suf.data s.data

/-- Python score: indicators present in the lower-cased listing plus the
number of files whose lower-cased name ends in `.py`. -/
def python_count (files : List String) : Nat :=
  let files_lower := files.map lower_str
  (python_indicators.filter (fun i => decide (i ∈ files_lower))).length
    + (files_lower.filter (fun f => ends_with_str f ".py")).length

/-- Node.js score: indicators present in the lower-cased listing plus the
number of files whose lower-cased name ends in `.js`. -/
def nodejs_count (files : List String) : Nat :=
  let files_lower := files.map lower_str
  (nodejs_indicators.filter (fun i => decide (i ∈ files_lower))).length
    + (files_lower.filter (fun f => ends_with_str f ".js")).length

/-- Language decision: higher score wins, a nonzero tie goes to Python,
a zero-zero tie is unknown. -/
def _detect_language (files : List String) : String :=
  if python_count files > nodejs_count files then "python"
  else if nodejs_count files > python_count files then "javascript"
  else if python_count files > 0 then "python"
  else "unknown"

/-! ## PipelineGenerator file actions (PipelineGenerator.py, lines 72-128) -/

/-- A single entry of the commit action list built by
`_create_pipeline_files`. -/
structure FileAction where
  action : String
  file_path : String
  content : String
deriving DecidableEq, Repr

/-- Membership test a file-existence check reduces to once the branch
listing has been fetched (`file_path in files_in_branch`); a fetch that
raised is modelled by the oracle returning the empty listing, matching the
`except` arm that returns `False`. -/
def _check_file_exists_in_branch (files_in_branch : List String) (file_path : String) : Bool :=
  decide (file_path ∈ files_in_branch)

/-- Worker for `_create_pipeline_files`: the i-th file's existence check
fetches the source branch listing afresh (`fetch i`), and the rendered
template content is `render f`. -/
def create_files_go (render : String → String) (fetch : Nat → List String) :
    Nat → List String → List FileAction
  | _, [] => []
  | i, f :: rest =>
    let file_exists := _check_file_exists_in_branch (fetch i) f
    let action_type := if file_exists then "update" else "create"
    ⟨action_type, f, render f⟩ :: create_files_go render fetch (i + 1) rest

/-- Action list for the files named by the pipeline type, in order. -/
def _create_pipeline_files (render : String → String) (fetch : Nat → List String)
    (files_to_create : List String) : List FileAction :=
  create_files_go render fetch 0 files_to_create

/-! ## GitLabHandler._simple_retry (GitLabHandler.py, lines 36-52) -/

/-- Outcome of one invocation of the wrapped function. -/
inductive Attempt (ε α : Type) where
  | ok : α → Attempt ε α
  | err : ε → Attempt ε α
deriving DecidableEq, Repr

/-- Everything observable about one run of the retry wrapper: the value
returned or error re-raised (`Except.error none` models `raise None` when
the loop never ran), how many times the wrapped function was invoked, and
the sleep durations in seconds between consecutive attempts. -/
structure RetryTrace (ε α : Type) where
  result : Except (Option ε) α
  calls : Nat
  sleeps : List Nat
deriving Repr

/-- The retry loop from attempt index `i` on, with `fuel` attempts left
(`fuel = max_retries - i` at every reachable call) and the last error seen
so far. The sleep before retrying attempt `i + 1` is `(i + 1) * 2` seconds. -/
def retry_from (outcomes : Nat → Attempt ε α) (max_retries : Nat) :
    Nat → Option ε → Nat → RetryTrace ε α
  | _, last_error, 0 => ⟨Except.error last_error, 0, []⟩
  | i, _, fuel + 1 =>
    match outcomes i with
    | Attempt.ok v => ⟨Except.ok v, 1, []⟩
    | Attempt.err e =>
      if i + 1 < max_retries then
        let rest := retry_from outcomes max_retries (i + 1) (some e) fuel
        ⟨rest.result, rest.calls + 1, (i + 1) * 2 :: rest.sleeps⟩
      else
        ⟨Except.error (some e), 1, []⟩

/-- The wrapper `_simple_retry`: run the wrapped call up to `max_retries` times,
sleeping linearly between attempts, re-raising the last error when every
attempt failed. `outcomes i` is what the wrapped function does on its
i-th invocation. -/
def _simple_retry (max_retries : Nat) (outcomes : Nat → Attempt ε α) : RetryTrace ε α :=
  retry_from outcomes max_retries 0 none max_retries

/-! ## PipelineMonitor.monitor_pipeline (PipelineMonitor.py, lines 23-74) -/

/-- The dictionary `monitor_pipeline` returns, by shape: a terminal status
with its duration, check count and whether failure analysis ran; the
`status: error` dictionary returned when a status fetch came back empty;
or the timeout dictionary. `diverged` is the fuel-exhaustion marker of the
embedding; it is unreachable whenever the poll interval is positive. -/
inductive MonitorResult where
  | finished (status : String) (duration : Int) (checks : Nat) (analyzed : Bool)
  | fetchError
  | timedOut (duration : Int) (checks : Nat)
  | diverged
deriving DecidableEq, Repr

/-- The `status` entry of the returned dictionary. -/
def MonitorResult.status : MonitorResult → String
  | MonitorResult.finished s _ _ _ => s
  | MonitorResult.fetchError => "error"
  | MonitorResult.timedOut _ _ => "timeout"
  | MonitorResult.diverged => "diverged"

/-- The polling loop. `n` counts completed iterations, so the elapsed time
at the loop condition is `n * check_interval` (each earlier iteration
ended in one `check_interval` sleep); `fetch n` is the status delivered by
`get_pipeline_by_id` on the iteration making check number `n + 1`, `none`
when that call returned no pipeline info. -/
def monitor_go (fetch : Nat → Option String) (check_interval max_wait_time : Int) :
    Nat → Nat → MonitorResult
  | n, fuel =>
    if (n : Int) * check_interval < max_wait_time then
      match fuel with
      | 0 => MonitorResult.diverged
      | fuel' + 1 =>
        match fetch n with
        | none => MonitorResult.fetchError
        | some s =>
          if s = "success" ∨ s = "failed" ∨ s = "canceled" ∨ s = "skipped" then
            MonitorResult.finished s ((n : Int) * check_interval) (n + 1) (s = "failed")
          else
            monitor_go fetch check_interval max_wait_time (n + 1) fuel'
    else
      MonitorResult.timedOut max_wait_time n

/-- The monitor entry point `monitor_pipeline`: poll until a terminal status or until elapsed time
reaches `max_wait_time`. The fuel `max_wait_time.toNat + 1` covers every
iteration the loop can perform when `check_interval ≥ 1`. -/
def monitor_pipeline (fetch : Nat → Option String) (check_interval max_wait_time : Int) :
    MonitorResult :=
  monitor_go fetch check_interval max_wait_time 0 (max_wait_time.toNat + 1)

/-! ## GitLabHandler caches and branch listing (GitLabHandler.py, lines 69-109) -/

/-- Project metadata, reduced to the field the client reads;
`default_branch = none` models a JSON document without that key. -/
structure ProjectInfo where
  default_branch : Option String
deriving DecidableEq, Repr

/-- The two per-instance caches of `GitLabHandler`. -/
structure HandlerCache where
  _project_info : Option ProjectInfo
  _default_branch : Option String
deriving DecidableEq, Repr

/-- The accessor `get_project`: cached project info, fetched once; a failed fetch
returns `none` and caches nothing. `project_fetch` is the outcome of the
GET after retries. -/
def get_project (cache : HandlerCache) (project_fetch : Except Unit ProjectInfo) :
    Option ProjectInfo × HandlerCache :=
  match cache._project_info with
  | some info => (some info, cache)
  | none =>
    match project_fetch with
    | Except.ok info => (some info, { cache with _project_info := some info })
    | Except.error _ => (none, cache)

/-- The accessor `get_default_branch`: cached; derived from project info with literal
fallback `main` both for a missing key and for a failed project fetch. -/
def get_default_branch (cache : HandlerCache) (project_fetch : Except Unit ProjectInfo) :
    String × HandlerCache :=
  match cache._default_branch with
  | some db => (db, cache)
  | none =>
    match get_project cache project_fetch with
    | (some info, c1) =>
      let db := info.default_branch.getD "main"
      (db, { c1 with _default_branch := some db })
    | (none, c1) => ("main", { c1 with _default_branch := some "main" })

/-- The listing call `get_available_branches`: the fetched branch names on success; on any
error, a one-element list holding the default branch. No branch list is
ever cached. `branches_fetch` is the outcome of the GET after retries. -/
def get_available_branches (cache : HandlerCache) (project_fetch : Except Unit ProjectInfo)
    (branches_fetch : Except Unit (List String)) : List String × HandlerCache :=
  match branches_fetch with
  | Except.ok names => (names, cache)
  | Except.error _ =>
    let (db, c1) := get_default_branch cache project_fetch
    ([db], c1)

/-! ## GitLabHandler.get_file_list (GitLabHandler.py, lines 111-155) -/

/-- One entry of the repository tree response. -/
structure TreeEntry where
  path : String
  type : String
deriving DecidableEq, Repr

/-- Outcome of one GET of `/repository/tree` for a given ref, after the
retry wrapper: a parsed entry list, an `HTTPError` with its status code,
or any other exception. -/
inductive TreeResp where
  | ok : List TreeEntry → TreeResp
  | httpErr : Nat → TreeResp
  | exc : TreeResp
deriving DecidableEq, Repr

/-- The paths of blob-type entries, as extracted from a tree response. -/
def blob_paths (entries : List TreeEntry) : List String :=
  (entries.filter (fun f => f.type = "blob")).map (fun f => f.path)

/-- The probe over the fixed common branch names run when even the default
branch returned 404: first branch that is available, differs from the
failing ref and lists successfully wins; every failure is swallowed. -/
def probe_common (tree : String → TreeResp) (available_branches : List String)
    (ref : String) : List String → List String
  | [] => []
  | b :: rest =>
    if b ∈ available_branches ∧ b ≠ ref then
      match tree b with
      | TreeResp.ok entries => blob_paths entries
      | _ => probe_common tree available_branches ref rest
    else
      probe_common tree available_branches ref rest

/-- The listing call `get_file_list` for an explicit ref. `tree` is the per-ref outcome of
the tree GET (after retries), `db` the default branch,
`available_branches` the result `get_available_branches` delivers inside
the 404 handler. A 404 on a non-default ref retries the call on the
default branch; a 404 on the default branch probes `main`, `master`,
`develop`; every other failure returns the empty list. -/
def get_file_list (tree : String → TreeResp) (db : String)
    (available_branches : List String) (ref : String) : List String :=
  match tree ref with
  | TreeResp.ok entries => blob_paths entries
  | TreeResp.httpErr code =>
    if code = 404 then
      if _h : ref = db then
        probe_common tree available_branches ref ["main", "master", "develop"]
      else
        get_file_list tree db available_branches db
    else []
  | TreeResp.exc => []
termination_by if ref = db then 0 else 1
decreasing_by simp_all

/-- The `ref=None` entry point defaults the ref to the default branch. -/
def get_file_list_opt (tree : String → TreeResp) (db : String)
    (available_branches : List String) (ref : Option String) : List String :=
  get_file_list tree db available_branches (ref.getD db)

/-! ## GitLabHandler.create_merge_request (GitLabHandler.py, lines 290-372) -/

/-- A merge-request record, reduced to the fields the client reads. -/
structure MergeRequest where
  iid : Nat
  web_url : String
deriving DecidableEq, Repr

/-- Outcome of the MR-creating POST after retries. -/
inductive MRPost where
  | ok : MergeRequest → MRPost
  | httpErr : Nat → MRPost
  | exc : MRPost
deriving DecidableEq, Repr

/-- What `create_merge_request` does for its caller: hand back a record
(new or existing), re-raise the error, or swallow it into `None`. -/
inductive MRCreateResult where
  | returned : MergeRequest → MRCreateResult
  | raised : MRCreateResult
  | returnedNone : MRCreateResult
deriving DecidableEq, Repr

/-- The lookup `_find_existing_mr`: first entry of the opened-MR listing for the
source branch (the GET uses `per_page = 1`), `none` on an empty listing or
a failed fetch. -/
def _find_existing_mr (existing_fetch : Except Unit (List MergeRequest)) :
    Option MergeRequest :=
  match existing_fetch with
  | Except.ok mrs => mrs.head?
  | Except.error _ => none

/-- Target branch selection when the caller passes no target: the first of
`develop`, `dev`, the default branch present in the available list, else
the default branch. -/
def select_target_branch (available_branches : List String) (db : String) : String :=
  let preferred_targets := ["develop", "dev", db]
  match preferred_targets.filter (fun b => decide (b ∈ available_branches)) with
  | [] => db
  | t :: _ => t

/-- The call `create_merge_request`, after the target branch has been fixed (the
selection only shapes the request payload, which the `post` oracle already
reflects): success returns the record; a 409 looks up the existing open MR
and returns it, re-raising if none is found; any other `HTTPError`
re-raises; any other exception becomes `None`. -/
def create_merge_request (post : MRPost)
    (existing_fetch : Except Unit (List MergeRequest)) : MRCreateResult :=
  match post with
  | MRPost.ok mr => MRCreateResult.returned mr
  | MRPost.httpErr code =>
    if code = 409 then
      match _find_existing_mr existing_fetch with
      | some mr => MRCreateResult.returned mr
      | none => MRCreateResult.raised
    else MRCreateResult.raised
  | MRPost.exc => MRCreateResult.returnedNone

/-! ## GitLabHandler.create_branch (GitLabHandler.py, lines 157-270) -/

/-- The remote branch namespace: each entry maps a branch name to the ref
its creation request named. -/
structure Remote where
  branches : List (String × String)
deriving DecidableEq, Repr

/-- How many branches of the remote carry the given name. -/
def Remote.count (st : Remote) (name : String) : Nat :=
  (st.branches.filter (fun p => p.1 = name)).length

/-- The ref a branch of the remote was created from, if present. -/
def Remote.origin (st : Remote) (name : String) : Option String :=
  st.branches.lookup name

/-- The check `branch_exists`, for a remote that answers the lookup truthfully. -/
def branch_exists (st : Remote) (name : String) : Bool :=
  (st.branches.lookup name).isSome

/-- The remote after a successful DELETE of a branch name. -/
def Remote.erase (st : Remote) (name : String) : Remote :=
  ⟨st.branches.filter (fun p => ¬ p.1 = name)⟩

/-- The remote after a successful branch-creating POST. -/
def Remote.add (st : Remote) (name ref : String) : Remote :=
  ⟨st.branches ++ [(name, ref)]⟩

/-- The mutating API calls `create_branch` can issue, in order. -/
inductive ApiCall where
  | deleteCall : String → ApiCall
  | createCall : String → String → ApiCall
deriving DecidableEq, Repr

/-- Branch metadata shown to the user before the destructive choice. -/
structure BranchInfo where
  commit_message : String
  commit_date : String
deriving DecidableEq, Repr

/-- The choice the interactive confirmation loop eventually settles on, in
either of its two forms (numbered menu when branch info was retrieved,
y/N prompt when it was not). -/
inductive UserChoice where
  | deleteRecreate : UserChoice
  | abort : UserChoice
deriving DecidableEq, Repr

/-- Outcome of one branch-creating POST after retries. -/
inductive CreateResp where
  | ok : CreateResp
  | httpErr : Nat → CreateResp
  | exc : CreateResp
deriving DecidableEq, Repr

/-- The existence check and interactive confirmation protocol opening
`create_branch`: the first component says whether the run goes on to the
creating POST, alongside the remote state and the mutating calls issued
so far. `info` is what `get_branch_info` returned (it selects between the
numbered menu and the y/N prompt, whose outcomes coincide), `choice` the
decision the user settles on, `delete_ok` whether the DELETE succeeded. -/
def confirm_phase (info : Option BranchInfo) (choice : UserChoice) (delete_ok : Bool)
    (st : Remote) (name : String) : Bool × Remote × List ApiCall :=
  if branch_exists st name then
    match info with
    | some _ =>
      -- Numbered menu: 1 = delete and recreate, 2 = stop.
      match choice with
      | UserChoice.deleteRecreate =>
        if delete_ok then (true, st.erase name, [ApiCall.deleteCall name])
        else (false, st, [ApiCall.deleteCall name])
      | UserChoice.abort => (false, st, [])
    | none =>
      -- y/N prompt with the same two outcomes.
      match choice with
      | UserChoice.deleteRecreate =>
        if delete_ok then (true, st.erase name, [ApiCall.deleteCall name])
        else (false, st, [ApiCall.deleteCall name])
      | UserChoice.abort => (false, st, [])
  else (true, st, [])

/-- The operation `create_branch` with explicit fuel bounding the recursion depth of the
bad-reference fallback. The fallback recursion always passes the default
branch as the ref, for which no further fallback can fire, so depth 2
covers every run; the fuel-0 arm is unreachable from `create_branch`.
`createResp ref` is the outcome of the POST naming `ref`. Returns the
Python result, the remote after the run, and the mutating calls issued. -/
def create_branch_fuel (db : String) (createResp : String → CreateResp)
    (info : Option BranchInfo) (choice : UserChoice) (delete_ok : Bool) :
    Nat → Remote → String → String → Bool × Remote × List ApiCall
  | 0, st, _, _ => (false, st, [])
  | fuel + 1, st, name, ref =>
    match confirm_phase info choice delete_ok st name with
    | (false, st1, log1) => (false, st1, log1)
    | (true, st1, log1) =>
      match createResp ref with
      | CreateResp.ok => (true, st1.add name ref, log1 ++ [ApiCall.createCall name ref])
      | CreateResp.httpErr code =>
        if code = 400 ∧ ¬ ref = db then
          let rest := create_branch_fuel db createResp info choice delete_ok fuel st1 name db
          (rest.1, rest.2.1, log1 ++ ApiCall.createCall name ref :: rest.2.2)
        else (false, st1, log1 ++ [ApiCall.createCall name ref])
      | CreateResp.exc => (false, st1, log1 ++ [ApiCall.createCall name ref])

/-- The operation `create_branch`: existence check, interactive delete-and-recreate
confirmation, creating POST with a one-shot fallback to the default
branch on a 400 bad-reference answer. -/
def create_branch (db : String) (createResp : String → CreateResp)
    (info : Option BranchInfo) (choice : UserChoice) (delete_ok : Bool)
    (st : Remote) (name ref : String) : Bool × Remote × List ApiCall :=
  create_branch_fuel db createResp info choice delete_ok 2 st name ref

/-! ## PipelineGenerator.generate_and_commit (PipelineGenerator.py, lines 130-263) -/

/-- First entry of the priority list present in the available list. -/
def first_present (priority available_branches : List String) : Option String :=
  priority.find? (fun b => decide (b ∈ available_branches))

/-- The selection `_get_best_source_branch`: the analysis branch when truthy and
available, else the default branch when available, else the first
available branch, else the literal `main`. -/
def _get_best_source_branch (available_branches : List String) (db : String)
    (analysis_branch : String) : String :=
  if ¬ analysis_branch = "" ∧ analysis_branch ∈ available_branches then analysis_branch
  else if db ∈ available_branches then db
  else available_branches.headD "main"

/-- The selection `_get_best_target_branch`: the analysis branch when it is `develop` or
`dev`, else the first of `develop`, `dev`, the default branch present in
the available list, else the default branch. -/
def _get_best_target_branch (available_branches : List String) (db : String)
    (analysis_branch : String) : String :=
  if analysis_branch = "develop" ∨ analysis_branch = "dev" then analysis_branch
  else (first_present ["develop", "dev", db] available_branches).getD db

/-- The result dictionary of a completed `generate_and_commit` run. -/
structure GenResult where
  success : Bool
  branch_name : String
  source_branch : String
  target_branch : String
  commit_id : Nat
  merge_request : Option MergeRequest
  files_created : Nat
deriving DecidableEq, Repr

/-- The workflow `generate_and_commit` over the remote `st`. The branch-creation
oracles are those of `create_branch`; `actions_built` is what
`_create_pipeline_files` delivered (`Except.error` when a template failed
and the exception flew to the enclosing handler); `commit_result` is the
commit id `commit_files` returned, `none` on failure; `mr_result` is what
`create_merge_request` did. A raised MR error is caught by the enclosing
`except` and turns the whole run into `none`; an MR call that swallowed
its error into `None` leaves the run successful with an absent
`merge_request` field. No arm deletes the created branch. -/
def generate_and_commit (st : Remote) (db : String) (available_branches : List String)
    (analysis_branch : String) (feature : String)
    (createResp : String → CreateResp) (info : Option BranchInfo)
    (choice : UserChoice) (delete_ok : Bool)
    (actions_built : Except Unit (List FileAction)) (commit_result : Option Nat)
    (mr_result : MRCreateResult) : Option GenResult × Remote :=
  let source_branch := _get_best_source_branch available_branches db analysis_branch
  let target_branch := _get_best_target_branch available_branches db analysis_branch
  let cb := create_branch db createResp info choice delete_ok st feature source_branch
  match cb with
  | (false, st1, _) => (none, st1)
  | (true, st1, _) =>
    match actions_built with
    | Except.error _ => (none, st1)
    | Except.ok actions =>
      if actions.isEmpty then (none, st1)
      else
        match commit_result with
        | none => (none, st1)
        | some cid =>
          match mr_result with
          | MRCreateResult.raised => (none, st1)
          | MRCreateResult.returned mr =>
            (some ⟨true, feature, source_branch, target_branch, cid, some mr, actions.length⟩, st1)
          | MRCreateResult.returnedNone =>
            (some ⟨true, feature, source_branch, target_branch, cid, none, actions.length⟩, st1)

/-! ## Unfolding equations for the loop embeddings -/

theorem monitor_go_zero (fetch : Nat → Option String) (I W : Int) (n : Nat) :
    monitor_go fetch I W n 0
      = if (n : Int) * I < W then MonitorResult.diverged
        else MonitorResult.timedOut W n := by
  rw [monitor_go]

theorem monitor_go_succ (fetch : Nat → Option String) (I W : Int) (n f : Nat) :
    monitor_go fetch I W n (f + 1)
      = if (n : Int) * I < W then
          match fetch n with
          | none => MonitorResult.fetchError
          | some s =>
            if s = "success" ∨ s = "failed" ∨ s = "canceled" ∨ s = "skipped" then
              MonitorResult.finished s ((n : Int) * I) (n + 1) (s = "failed")
            else
              monitor_go fetch I W (n + 1) f
        else MonitorResult.timedOut W n := by
  rw [monitor_go]

/-! ## C9: language detection ties -/

/-- C9: when the Python and Node.js scores are equal and nonzero the
detector answers `python` (the first-registered ecosystem), and the answer
is `unknown` exactly when both scores are zero. -/
theorem detect_language_tie_behavior (files : List String) :
    (python_count files = nodejs_count files → 0 < python_count files →
      _detect_language files = "python")
    ∧ (_detect_language files = "unknown" ↔
        python_count files = 0 ∧ nodejs_count files = 0) := by
  unfold _detect_language
  constructor
  · intro heq hpos
    split_ifs with h1 h2 <;> first | rfl | omega
  · split_ifs with h1 h2 h3 <;>
      constructor <;> intro h <;> first | rfl | omega | (simp at h)

/-- Witness for C9: one marker file from each ecosystem and no
extension-matching file gives a one-one tie, resolved to Python. -/
theorem detect_language_tie_behavior_witness :
    python_count ["requirements.txt", "yarn.lock"]
        = nodejs_count ["requirements.txt", "yarn.lock"]
    ∧ 0 < python_count ["requirements.txt", "yarn.lock"]
    ∧ _detect_language ["requirements.txt", "yarn.lock"] = "python" :=
  ⟨by decide, by decide,
    (detect_language_tie_behavior ["requirements.txt", "yarn.lock"]).1
      (by decide) (by decide)⟩

/-! ## C7: file-action assignment -/

theorem create_files_go_canonical (render : String → String) (fetch : Nat → List String)
    (listing : List String) (hfetch : ∀ i, fetch i = listing) :
    ∀ (files : List String) (i : Nat),
      create_files_go render fetch i files
        = files.map (fun f =>
            ⟨if f ∈ listing then "update" else "create", f, render f⟩) := by
  intro files
  induction files with
  | nil => intro i; rfl
  | cons f rest ih =>
    intro i
    simp only [create_files_go, _check_file_exists_in_branch, hfetch i, List.map_cons,
      ih (i + 1)]
    by_cases hmem : f ∈ listing <;> simp [hmem]

/-- C7: with an unchanged source-branch listing, the action assignment is
the pointwise function of listing membership (`update` when present,
`create` when absent), hence deterministic and stable under re-runs. -/
theorem create_pipeline_files_action_assignment (render : String → String)
    (fetch : Nat → List String) (listing : List String)
    (files_to_create : List String) (hfetch : ∀ i, fetch i = listing) :
    _create_pipeline_files render fetch files_to_create
      = files_to_create.map (fun f =>
          ⟨if f ∈ listing then "update" else "create", f, render f⟩)
    ∧ (∀ a ∈ _create_pipeline_files render fetch files_to_create,
        (a.file_path ∈ listing → a.action = "update")
        ∧ (a.file_path ∉ listing → a.action = "create"))
    ∧ (∀ fetch2 : Nat → List String, (∀ i, fetch2 i = listing) →
        _create_pipeline_files render fetch files_to_create
          = _create_pipeline_files render fetch2 files_to_create) := by
  have hcanon := create_files_go_canonical render fetch listing hfetch files_to_create 0
  refine ⟨hcanon, ?_, ?_⟩
  · intro a ha
    rw [_create_pipeline_files, hcanon] at ha
    simp only [List.mem_map] at ha
    obtain ⟨f, _, rfl⟩ := ha
    constructor <;> intro hmem <;> simp [hmem]
  · intro fetch2 hfetch2
    rw [_create_pipeline_files, hcanon, _create_pipeline_files,
      create_files_go_canonical render fetch2 listing hfetch2 files_to_create 0]

/-- Witness for C7 at a concrete listing: the file present on the source
branch is assigned `update`, the absent one `create`. -/
theorem create_pipeline_files_action_assignment_witness :
    _create_pipeline_files (fun f => f) (fun _ => ["ci.yml"]) ["ci.yml", "new.yml"]
      = ["ci.yml", "new.yml"].map (fun f =>
          ⟨if f ∈ ["ci.yml"] then "update" else "create", f, f⟩) :=
  (create_pipeline_files_action_assignment (fun f => f) (fun _ => ["ci.yml"])
    ["ci.yml"] ["ci.yml", "new.yml"] (fun _ => rfl)).1

/-! ## C4: merge-request conflict resolution -/

/-- C4: a 409 conflict answer with exactly one open merge request for the
source branch makes `create_merge_request` return that existing record,
neither an error nor an absent result. -/
theorem create_merge_request_conflict_reuses_existing (mr : MergeRequest) :
    create_merge_request (MRPost.httpErr 409) (Except.ok [mr])
      = MRCreateResult.returned mr := rfl

/-! ## C2: branch listing on error -/

/-- C2 counterexample: with every fetch failing and a cold cache, the
branch listing is the one-element list holding the fallback default
branch, not the empty list the claim states. -/
theorem get_available_branches_error_counterexample :
    (get_available_branches ⟨none, none⟩ (Except.error ()) (Except.error ())).1 = ["main"]
    ∧ (get_available_branches ⟨none, none⟩ (Except.error ()) (Except.error ())).1 ≠ [] := by
  constructor
  · rfl
  · decide

/-- C2 amended: on error the branch listing is the one-element list
holding the default branch (hence never empty), and no branch list is
memoized — a later call with a successful fetch returns that fresh
listing whatever an earlier call did to the caches. -/
theorem get_available_branches_soft_fail (cache : HandlerCache)
    (pf pf2 : Except Unit ProjectInfo) (bf : Except Unit (List String))
    (e : Unit) (names : List String) :
    (get_available_branches cache pf (Except.error e)).1
        = [(get_default_branch cache pf).1]
    ∧ (get_available_branches cache pf (Except.error e)).1 ≠ []
    ∧ (get_available_branches ((get_available_branches cache pf bf).2) pf2
        (Except.ok names)).1 = names := by
  refine ⟨rfl, ?_, rfl⟩
  simp [get_available_branches]

/-! ## C10: non-positive wait bound -/

/-- C10: a non-positive `max_wait_time` makes `monitor_pipeline` return
the timeout dictionary with zero checks, independently of the status
fetches (the loop body never runs). -/
theorem monitor_pipeline_nonpositive_wait (fetch : Nat → Option String)
    (check_interval max_wait_time : Int) (hW : max_wait_time ≤ 0) :
    monitor_pipeline fetch check_interval max_wait_time
      = MonitorResult.timedOut max_wait_time 0 := by
  have hc : ¬ (((0 : Nat) : Int) * check_interval < max_wait_time) := by
    rw [Int.natCast_zero, zero_mul]
    omega
  rw [monitor_pipeline, monitor_go, if_neg hc]

/-- Witness for C10: zero wait time gives timeout with zero checks even
though the fetch would report a running pipeline. -/
theorem monitor_pipeline_nonpositive_wait_witness :
    monitor_pipeline (fun _ => some "running") 30 0 = MonitorResult.timedOut 0 0 :=
  monitor_pipeline_nonpositive_wait (fun _ => some "running") 30 0 (by decide)

/-! ## C5: file-list fallback to the default branch -/

/-- C5: when listing a non-default ref answers 404, the result is exactly
the result of listing the default branch. -/
theorem get_file_list_fallback_to_default (tree : String → TreeResp)
    (db : String) (available_branches : List String) (ref : String)
    (hne : ref ≠ db) (h404 : tree ref = TreeResp.httpErr 404) :
    get_file_list tree db available_branches ref
      = get_file_list tree db available_branches db := by
  rw [get_file_list, h404]
  simp [hne]

/-- Witness for C5: a missing feature ref falls back to the default
branch's listing. -/
theorem get_file_list_fallback_to_default_witness :
    get_file_list
        (fun r => if r = "feature/x" then TreeResp.httpErr 404
                  else TreeResp.ok [⟨"a.py", "blob"⟩])
        "main" [] "feature/x"
      = get_file_list
          (fun r => if r = "feature/x" then TreeResp.httpErr 404
                    else TreeResp.ok [⟨"a.py", "blob"⟩])
          "main" [] "main" :=
  get_file_list_fallback_to_default _ "main" [] "feature/x" (by decide) (by decide)

/-! ## C8: the retry wrapper -/

theorem retry_from_calls_le (outcomes : Nat → Attempt ε α) (m : Nat) :
    ∀ (fuel i : Nat) (le : Option ε),
      (retry_from outcomes m i le fuel).calls ≤ fuel := by
  intro fuel
  induction fuel with
  | zero => intro i le; simp [retry_from]
  | succ f ih =>
    intro i le
    rw [retry_from]
    cases outcomes i with
    | ok v => simp
    | err e =>
      by_cases hlt : i + 1 < m
      · simpa [hlt] using Nat.succ_le_succ (ih (i + 1) (some e))
      · simp [hlt]

theorem retry_from_calls_pos (outcomes : Nat → Attempt ε α) (m : Nat)
    (f i : Nat) (le : Option ε) :
    1 ≤ (retry_from outcomes m i le (f + 1)).calls := by
  rw [retry_from]
  cases outcomes i with
  | ok v => simp
  | err e =>
    by_cases hlt : i + 1 < m <;> simp [hlt]

theorem retry_from_sleeps (outcomes : Nat → Attempt ε α) (m : Nat) :
    ∀ (fuel i : Nat) (le : Option ε), m ≤ i + fuel →
      (retry_from outcomes m i le fuel).sleeps
        = (List.range ((retry_from outcomes m i le fuel).calls - 1)).map
            (fun k => (i + k + 1) * 2) := by
  intro fuel
  induction fuel with
  | zero => intro i le _; simp [retry_from]
  | succ f ih =>
    intro i le hm
    rw [retry_from]
    cases outcomes i with
    | ok v => simp
    | err e =>
      by_cases hlt : i + 1 < m
      · have hf : 0 < f := by omega
        obtain ⟨f', rfl⟩ : ∃ f', f = f' + 1 := ⟨f - 1, by omega⟩
        have hrest := ih (i + 1) (some e) (by omega)
        have hpos := retry_from_calls_pos outcomes m f' (i + 1) (some e)
        simp only [hlt, if_true]
        obtain ⟨c', hc'⟩ : ∃ c',
            (retry_from outcomes m (i + 1) (some e) (f' + 1)).calls = c' + 1 :=
          ⟨(retry_from outcomes m (i + 1) (some e) (f' + 1)).calls - 1, by omega⟩
        simp only [hrest, hc', Nat.add_sub_cancel, List.range_succ_eq_map,
          List.map_cons, List.map_map]
        refine List.cons_eq_cons.mpr ⟨by omega, ?_⟩
        apply List.map_congr_left
        intro k _
        simp only [Function.comp_apply]
        omega
      · simp [hlt]

theorem retry_from_all_err (outcomes : Nat → Attempt ε α) (m : Nat) (e : Nat → ε)
    (herr : ∀ j, j < m → outcomes j = Attempt.err (e j)) :
    ∀ (fuel i : Nat) (le : Option ε), fuel = m - i → i < m →
      (retry_from outcomes m i le fuel).result = Except.error (some (e (m - 1)))
      ∧ (retry_from outcomes m i le fuel).calls = m - i := by
  intro fuel
  induction fuel with
  | zero => intro i le hfuel hi; omega
  | succ f ih =>
    intro i le hfuel hi
    rw [retry_from, herr i hi]
    by_cases hlt : i + 1 < m
    · have hrec := ih (i + 1) (some (e i)) (by omega) hlt
      simp only [hlt, if_true]
      exact ⟨hrec.1, by simp only [hrec.2]; omega⟩
    · have him : i = m - 1 := by omega
      simp only [hlt, if_false]
      exact ⟨by rw [him], by omega⟩

/-- C8: the wrapper invokes the call at most `max_retries` times, sleeps
`attempt_index * 2` seconds between consecutive attempts (linear backoff),
and when every attempt fails it re-raises the error of the final attempt
unwrapped — in particular the original error when each attempt raises the
same one. -/
theorem simple_retry_spec (max_retries : Nat) (outcomes : Nat → Attempt ε α)
    (hm : 1 ≤ max_retries) :
    (_simple_retry max_retries outcomes).calls ≤ max_retries
    ∧ (_simple_retry max_retries outcomes).sleeps
        = (List.range ((_simple_retry max_retries outcomes).calls - 1)).map
            (fun k => (k + 1) * 2)
    ∧ (∀ e : Nat → ε, (∀ j, j < max_retries → outcomes j = Attempt.err (e j)) →
        (_simple_retry max_retries outcomes).result
            = Except.error (some (e (max_retries - 1)))
        ∧ (_simple_retry max_retries outcomes).calls = max_retries) := by
  refine ⟨retry_from_calls_le outcomes max_retries max_retries 0 none, ?_, ?_⟩
  · have h := retry_from_sleeps outcomes max_retries max_retries 0 none (by omega)
    rw [_simple_retry, h]
    apply List.map_congr_left
    intro k _
    omega
  · intro e herr
    have h := retry_from_all_err outcomes max_retries e herr max_retries 0 none
      (by omega) (by omega)
    rw [_simple_retry]
    exact ⟨h.1, by rw [h.2]; omega⟩

/-- Witness for C8: three attempts all raising the same error use exactly
three calls, sleep 2 then 4 seconds, and re-raise that error. -/
theorem simple_retry_spec_witness :
    (_simple_retry (α := Nat) 3 (fun _ => Attempt.err (7 : Nat))).result
        = Except.error (some 7)
    ∧ (_simple_retry (α := Nat) 3 (fun _ => Attempt.err (7 : Nat))).calls = 3 :=
  (simple_retry_spec 3 (fun _ => Attempt.err (7 : Nat)) (by decide)).2.2
    (fun _ => 7) (fun _ _ => rfl)

/-! ## C1: the monitor's status range -/

theorem monitor_go_status_mem (fetch : Nat → Option String) (I W : Int)
    (hI : 1 ≤ I) (hf : ∀ k, (fetch k).isSome) :
    ∀ (fuel n : Nat), W.toNat ≤ n + fuel →
      (monitor_go fetch I W n fuel).status
        ∈ (["success", "failed", "canceled", "skipped", "timeout"] : List String) := by
  intro fuel
  induction fuel with
  | zero =>
    intro n h
    rw [monitor_go_zero]
    by_cases hc : (n : Int) * I < W
    · exfalso
      have h0 : (0 : Int) ≤ (n : Int) := Int.natCast_nonneg n
      have hmul : (n : Int) ≤ (n : Int) * I := le_mul_of_one_le_right h0 hI
      have hWn : W ≤ (n : Int) := Int.toNat_le.mp (by omega)
      linarith
    · rw [if_neg hc]
      simp [MonitorResult.status]
  | succ f ih =>
    intro n h
    rw [monitor_go_succ]
    by_cases hc : (n : Int) * I < W
    · rw [if_pos hc]
      obtain ⟨s, hs⟩ := Option.isSome_iff_exists.mp (hf n)
      simp only [hs]
      by_cases hterm : s = "success" ∨ s = "failed" ∨ s = "canceled" ∨ s = "skipped"
      · rw [if_pos hterm]
        rcases hterm with h1 | h1 | h1 | h1 <;> simp [MonitorResult.status, h1]
      · rw [if_neg hterm]
        exact ih (n + 1) (by omega)
    · rw [if_neg hc]
      simp [MonitorResult.status]

/-- C1 counterexample: a pipeline-info fetch that comes back empty makes
`monitor_pipeline` return status `error`, which is outside the claimed
five-value status set, even with a positive wait bound. -/
theorem monitor_pipeline_error_status_counterexample :
    (monitor_pipeline (fun _ => none) 30 1800).status = "error"
    ∧ "error" ∉ (["success", "failed", "canceled", "skipped", "timeout"] : List String) := by
  refine ⟨?_, by decide⟩
  rw [monitor_pipeline, monitor_go_succ]
  norm_num [MonitorResult.status]

/-- C1 amended: with a positive poll interval and wait bound, and provided
every pipeline-status fetch succeeds, the monitor's status is one of
`success`, `failed`, `canceled`, `skipped`, `timeout`; a failed fetch is
the sole further case and yields status `error`. -/
theorem monitor_pipeline_status_set (fetch : Nat → Option String) (I W : Int)
    (hI : 1 ≤ I) (_hW : 0 < W) (hf : ∀ k, (fetch k).isSome) :
    (monitor_pipeline fetch I W).status
      ∈ (["success", "failed", "canceled", "skipped", "timeout"] : List String) :=
  monitor_go_status_mem fetch I W hI hf (W.toNat + 1) 0 (by omega)

/-- Witness for C1: a run whose first fetch reports success lands in the
claimed status set. -/
theorem monitor_pipeline_status_set_witness :
    (monitor_pipeline (fun _ => some "success") 30 60).status
      ∈ (["success", "failed", "canceled", "skipped", "timeout"] : List String) :=
  monitor_pipeline_status_set (fun _ => some "success") 30 60 (by decide) (by decide)
    (fun _ => rfl)

/-! ## C6: delete-and-recreate branch creation -/

theorem lookup_append_self_isSome (l : List (String × String)) (name ref : String) :
    ((l ++ [(name, ref)]).lookup name).isSome := by
  induction l with
  | nil => simp [List.lookup]
  | cons a t ih =>
    obtain ⟨k, v⟩ := a
    by_cases h : name = k
    · simp [List.lookup, h]
    · have hbeq : (name == k) = false := by simp [h]
      simp [List.lookup, hbeq, ih]

theorem erase_add_origin (st : Remote) (name ref : String) :
    ((st.erase name).add name ref).origin name = some ref := by
  obtain ⟨l⟩ := st
  simp only [Remote.erase, Remote.add, Remote.origin]
  induction l with
  | nil => simp [List.lookup]
  | cons a t ih =>
    obtain ⟨k, v⟩ := a
    by_cases h : k = name
    · simpa [List.filter_cons, h] using ih
    · have hbeq : (name == k) = false := by simp [Ne.symm h]
      simp only [List.filter_cons, decide_not, h, decide_False, Bool.not_false,
        if_true, List.cons_append]
      simpa [List.lookup, hbeq] using ih

theorem erase_add_count (st : Remote) (name ref : String) :
    ((st.erase name).add name ref).count name = 1 := by
  obtain ⟨l⟩ := st
  simp only [Remote.erase, Remote.add, Remote.count]
  induction l with
  | nil => simp
  | cons a t ih =>
    obtain ⟨k, v⟩ := a
    by_cases h : k = name <;> simp [List.filter_cons, h, ih]

theorem create_branch_fuel_succ (db : String) (createResp : String → CreateResp)
    (info : Option BranchInfo) (choice : UserChoice) (delete_ok : Bool)
    (f : Nat) (st : Remote) (name ref : String) :
    create_branch_fuel db createResp info choice delete_ok (f + 1) st name ref
      = match confirm_phase info choice delete_ok st name with
        | (false, st1, log1) => (false, st1, log1)
        | (true, st1, log1) =>
          match createResp ref with
          | CreateResp.ok =>
            (true, st1.add name ref, log1 ++ [ApiCall.createCall name ref])
          | CreateResp.httpErr code =>
            if code = 400 ∧ ¬ ref = db then
              let rest := create_branch_fuel db createResp info choice delete_ok f st1 name db
              (rest.1, rest.2.1, log1 ++ ApiCall.createCall name ref :: rest.2.2)
            else (false, st1, log1 ++ [ApiCall.createCall name ref])
          | CreateResp.exc => (false, st1, log1 ++ [ApiCall.createCall name ref]) := rfl

theorem create_branch_fuel_true_mem (db : String) (createResp : String → CreateResp)
    (info : Option BranchInfo) (choice : UserChoice) (delete_ok : Bool) :
    ∀ (fuel : Nat) (st : Remote) (name ref : String),
      (create_branch_fuel db createResp info choice delete_ok fuel st name ref).1 = true →
      ((create_branch_fuel db createResp info choice delete_ok fuel
          st name ref).2.1.branches.lookup name).isSome := by
  intro fuel
  induction fuel with
  | zero =>
    intro st name ref h
    simp [create_branch_fuel] at h
  | succ f ih =>
    intro st name ref h
    rw [create_branch_fuel_succ] at h ⊢
    rcases hcp : confirm_phase info choice delete_ok st name with ⟨b, st1, log1⟩
    rw [hcp] at h
    cases b with
    | false => simp at h
    | true =>
      cases hcr : createResp ref with
      | ok =>
        simp only [hcr] at h ⊢
        exact lookup_append_self_isSome st1.branches name ref
      | httpErr code =>
        simp only [hcr] at h ⊢
        by_cases hcond : code = 400 ∧ ¬ ref = db
        · simp only [if_pos hcond] at h ⊢
          exact ih st1 name db (by simpa using h)
        · simp only [if_neg hcond] at h
          simp at h
      | exc =>
        simp only [hcr] at h
        simp at h

/-- C6 counterexample: a completed delete-and-recreate run whose creating
POST rejects the requested ref with 400 falls back to the default branch
and still reports success, so the recreated branch points at the default
branch, not the requested origin ref. -/
theorem create_branch_fallback_ref_counterexample :
    (create_branch "main"
        (fun r => if r = "develop" then CreateResp.httpErr 400 else CreateResp.ok)
        (some ⟨"msg", "date"⟩) UserChoice.deleteRecreate true
        ⟨[("feature/pipeops", "oldref"), ("main", "m0")]⟩ "feature/pipeops" "develop").1
      = true
    ∧ ((create_branch "main"
        (fun r => if r = "develop" then CreateResp.httpErr 400 else CreateResp.ok)
        (some ⟨"msg", "date"⟩) UserChoice.deleteRecreate true
        ⟨[("feature/pipeops", "oldref"), ("main", "m0")]⟩ "feature/pipeops"
        "develop").2.1).origin "feature/pipeops" = some "main"
    ∧ ("main" : String) ≠ "develop" :=
  ⟨by decide, by decide, by decide⟩

/-- C6 amended: after a delete-and-recreate confirmation on an existing
branch name, a failed deletion returns failure having issued only the
DELETE (no creation attempt); a successful deletion followed by a
successful creation with the requested ref issues the DELETE strictly
before the POST and leaves exactly one branch with that name, pointing at
the requested origin ref. When the host rejects the requested ref as
invalid, the recreated branch points at the default branch instead. -/
theorem create_branch_delete_recreate (db : String) (createResp : String → CreateResp)
    (info : Option BranchInfo) (st : Remote) (name ref : String)
    (hex : branch_exists st name = true) :
    (create_branch db createResp info UserChoice.deleteRecreate false st name ref
        = (false, st, [ApiCall.deleteCall name]))
    ∧ (createResp ref = CreateResp.ok →
        create_branch db createResp info UserChoice.deleteRecreate true st name ref
          = (true, (st.erase name).add name ref,
              [ApiCall.deleteCall name, ApiCall.createCall name ref])
        ∧ ((st.erase name).add name ref).count name = 1
        ∧ ((st.erase name).add name ref).origin name = some ref) := by
  constructor
  · have hcp : confirm_phase info UserChoice.deleteRecreate false st name
        = (false, st, [ApiCall.deleteCall name]) := by
      cases info <;> simp [confirm_phase, hex]
    rw [create_branch, show (2 : Nat) = 1 + 1 from rfl, create_branch_fuel_succ, hcp]
  · intro hok
    refine ⟨?_, erase_add_count st name ref, erase_add_origin st name ref⟩
    have hcp : confirm_phase info UserChoice.deleteRecreate true st name
        = (true, st.erase name, [ApiCall.deleteCall name]) := by
      cases info <;> simp [confirm_phase, hex]
    rw [create_branch, show (2 : Nat) = 1 + 1 from rfl, create_branch_fuel_succ, hcp,
      hok]
    rfl

/-- Witness for C6: a concrete existing branch, successful delete and
successful create leave one branch pointing at the requested ref, with the
DELETE logged before the POST. -/
theorem create_branch_delete_recreate_witness :
    create_branch "main" (fun _ => CreateResp.ok) (some ⟨"m", "d"⟩)
        UserChoice.deleteRecreate true ⟨[("feature/pipeops", "old")]⟩
        "feature/pipeops" "develop"
      = (true,
          (Remote.erase ⟨[("feature/pipeops", "old")]⟩ "feature/pipeops").add
            "feature/pipeops" "develop",
          [ApiCall.deleteCall "feature/pipeops",
            ApiCall.createCall "feature/pipeops" "develop"]) :=
  ((create_branch_delete_recreate "main" (fun _ => CreateResp.ok) (some ⟨"m", "d"⟩)
      ⟨[("feature/pipeops", "old")]⟩ "feature/pipeops" "develop" (by decide)).2 rfl).1

/-! ## C3: the generator's failure policy -/

/-- C3 counterexample: a run whose branch creation, file building and
commit all succeed but whose merge-request creation fails through the
non-HTTP exception path (the client swallows the error into an absent
record) still returns a present outcome — with an absent `merge_request`
field — instead of the absent outcome the claim states. -/
theorem generate_and_commit_mr_soft_failure_counterexample :
    (generate_and_commit ⟨[("main", "root")]⟩ "main" ["main"] "main" "feature/pipeops"
        (fun _ => CreateResp.ok) none UserChoice.deleteRecreate true
        (Except.ok [⟨"create", "ci.yml", "content"⟩]) (some 7)
        MRCreateResult.returnedNone).1
      = some ⟨true, "feature/pipeops", "main", "main", 7, none, 1⟩
    ∧ (generate_and_commit ⟨[("main", "root")]⟩ "main" ["main"] "main" "feature/pipeops"
        (fun _ => CreateResp.ok) none UserChoice.deleteRecreate true
        (Except.ok [⟨"create", "ci.yml", "content"⟩]) (some 7)
        MRCreateResult.returnedNone).1
      ≠ none :=
  ⟨by decide, by decide⟩

/-- C3 amended: a failed branch creation, a failed file-action build, a
failed commit, and a merge-request creation failure that surfaces as a
raised error each abort the run with an absent outcome, and the created
branch is never rolled back (it remains on the remote after the run); but
a merge-request creation failure the client swallows into an absent
record yields a present outcome whose `merge_request` field is absent. -/
theorem generate_and_commit_failure_policy (st : Remote) (db : String)
    (avail : List String) (ab feature : String)
    (createResp : String → CreateResp) (info : Option BranchInfo)
    (choice : UserChoice) (delete_ok : Bool)
    (actions_built : Except Unit (List FileAction)) (commit_result : Option Nat)
    (mr_result : MRCreateResult) :
    ((create_branch db createResp info choice delete_ok st feature
        (_get_best_source_branch avail db ab)).1 = false →
      (generate_and_commit st db avail ab feature createResp info choice delete_ok
        actions_built commit_result mr_result).1 = none)
    ∧ ((create_branch db createResp info choice delete_ok st feature
        (_get_best_source_branch avail db ab)).1 = true →
      ((∀ e, actions_built = Except.error e →
          (generate_and_commit st db avail ab feature createResp info choice delete_ok
            actions_built commit_result mr_result).1 = none)
      ∧ (commit_result = none →
          (generate_and_commit st db avail ab feature createResp info choice delete_ok
            actions_built commit_result mr_result).1 = none)
      ∧ (mr_result = MRCreateResult.raised →
          (generate_and_commit st db avail ab feature createResp info choice delete_ok
            actions_built commit_result mr_result).1 = none)
      ∧ (((generate_and_commit st db avail ab feature createResp info choice delete_ok
            actions_built commit_result mr_result).2.branches.lookup feature).isSome)
      ∧ (∀ actions cid, actions_built = Except.ok actions → ¬ actions = [] →
          commit_result = some cid → mr_result = MRCreateResult.returnedNone →
          (generate_and_commit st db avail ab feature createResp info choice delete_ok
            actions_built commit_result mr_result).1
            = some ⟨true, feature, _get_best_source_branch avail db ab,
                _get_best_target_branch avail db ab, cid, none, actions.length⟩))) := by
  simp only [generate_and_commit]
  rcases hcb : create_branch db createResp info choice delete_ok st feature
    (_get_best_source_branch avail db ab) with ⟨b, st1, log⟩
  have hcb' : create_branch_fuel db createResp info choice delete_ok 2 st feature
      (_get_best_source_branch avail db ab) = (b, st1, log) := hcb
  have hmem := create_branch_fuel_true_mem db createResp info choice delete_ok 2 st
    feature (_get_best_source_branch avail db ab)
  rw [hcb'] at hmem
  cases b with
  | false =>
    refine ⟨fun _ => rfl, fun htrue => ?_⟩
    simp at htrue
  | true =>
    refine ⟨fun hfalse => by simp at hfalse, fun _ => ⟨?_, ?_, ?_, ?_, ?_⟩⟩
    · intro e he
      rw [he]
    · intro hc
      rw [hc]
      cases actions_built with
      | error e => rfl
      | ok actions =>
        by_cases ha : actions.isEmpty <;> simp [ha]
    · intro hmr
      rw [hmr]
      cases actions_built with
      | error e => rfl
      | ok actions =>
        by_cases ha : actions.isEmpty <;> [simp [ha]; skip]
        simp only [ha, Bool.false_eq_true, if_false]
        cases commit_result with
        | none => rfl
        | some cid => rfl
    · have h1 : (st1.branches.lookup feature).isSome := by
        simpa using hmem rfl
      cases actions_built with
      | error e => simpa using h1
      | ok actions =>
        by_cases ha : actions.isEmpty
        · simpa [ha] using h1
        · simp only [ha, Bool.false_eq_true, if_false]
          cases commit_result with
          | none => simpa using h1
          | some cid =>
            cases mr_result <;> simpa using h1
    · intro actions cid hab hane hc hmr
      rw [hab, hc, hmr]
      have ha : actions.isEmpty = false := by
        cases actions with
        | nil => exact absurd rfl hane
        | cons a t => rfl
      simp [ha]

/-- Witness for C3 at concrete inputs: a failed commit aborts the run with
an absent outcome while the created feature branch remains on the remote,
and a raised merge-request error also aborts the run. -/
theorem generate_and_commit_failure_policy_witness :
    (generate_and_commit ⟨[("main", "root")]⟩ "main" ["main"] "main" "feature/pipeops"
        (fun _ => CreateResp.ok) none UserChoice.deleteRecreate true
        (Except.ok [⟨"create", "ci.yml", "c"⟩]) none MRCreateResult.raised).1 = none
    ∧ (((generate_and_commit ⟨[("main", "root")]⟩ "main" ["main"] "main" "feature/pipeops"
        (fun _ => CreateResp.ok) none UserChoice.deleteRecreate true
        (Except.ok [⟨"create", "ci.yml", "c"⟩]) none
        MRCreateResult.raised).2.branches.lookup "feature/pipeops").isSome) :=
  ⟨((generate_and_commit_failure_policy ⟨[("main", "root")]⟩ "main" ["main"] "main"
      "feature/pipeops" (fun _ => CreateResp.ok) none UserChoice.deleteRecreate true
      (Except.ok [⟨"create", "ci.yml", "c"⟩]) none MRCreateResult.raised).2
      (by decide)).2.1 rfl,
    ((generate_and_commit_failure_policy ⟨[("main", "root")]⟩ "main" ["main"] "main"
      "feature/pipeops" (fun _ => CreateResp.ok) none UserChoice.deleteRecreate true
      (Except.ok [⟨"create", "ci.yml", "c"⟩]) none MRCreateResult.raised).2
      (by decide)).2.2.2.1⟩

end PipeOps
